import Mathlib

/-!
Shallow embedding of the reducer/dispatch core of the repository:
the task-list reducer (TasksContext.jsx), the per-contact message-draft
reducer (MessengerReducer.jsx), the counter reducer (App.jsx, `reducer`)
and the aging-variant counter reducer (App.jsx, `counterReducer`), together
with the dispatch step of the hand-written `useReducer` shim.

JS numbers that serve as ids or counts are modelled as `Int`; JS strings as
`String`.  A reducer that can `throw Error("Unknown action: ...")` is
modelled as returning `Except ReducerError _`; the aging counter reducer has
no default branch and silently returns `undefined` on an unrecognized
action, so it is modelled as returning `Option AgeState` with `none` for
`undefined`.
-/

namespace Spec2Proof

/-- A task record from TasksContext.jsx: `{id, text, done}`. -/
structure Task where
  id : Int
  text : String
  done : Bool
deriving DecidableEq, Repr

/-- Actions understood by `tasksReducer`; the JS reducer discriminates on the
string field `action.type`, and the default branch of its switch handles any
other type string, modelled here by the `unknown` constructor carrying that
string. -/
inductive TaskAction where
  | added (id : Int) (text : String)
  | changed (task : Task)
  | deleted (id : Int)
  | unknown (ty : String)
deriving DecidableEq, Repr

/-- The only failure the reducers raise: the `throw Error("Unknown action")`
default branches. -/
inductive ReducerError where
  | UnknownAction
deriving DecidableEq, Repr

/-- tasksReducer from TasksContext.jsx.
`added` appends `{id, text, done: false}` at the end (no duplicate-id check
in the source); `changed` maps over the array replacing every task whose id
equals `action.task.id` by `action.task`; `deleted` filters out every task
whose id equals `action.id`; any other action type throws. -/
def tasksReducer (tasks : List Task) (action : TaskAction) :
    Except ReducerError (List Task) :=
  match action with
  | .added i s => .ok (tasks ++ [{ id := i, text := s, done := false }])
  | .changed tk => .ok (tasks.map fun t => if t.id = tk.id then tk else t)
  | .deleted i => .ok (tasks.filter fun t => t.id ≠ i)
  | .unknown _ => .error .UnknownAction

/-- The initial task list `initialTasks` of TasksContext.jsx. -/
def initialTasks : List Task :=
  [{ id := 0, text := "Philosopher's Path", done := true },
   { id := 1, text := "Visit the temple", done := false },
   { id := 2, text := "Drink matcha", done := false }]

/-- A JS object mapping contact ids to draft strings, modelled as an
association list in key order; keys are unique when the map is built with
`setKey`. -/
def MsgMap : Type := List (Int × String)

instance : DecidableEq MsgMap := by
  unfold MsgMap
  infer_instance

/-- JS property read `m[k]`: the value at the first matching key, `none`
when the key is absent (JS `undefined`). -/
def getKey : MsgMap → Int → Option String
  | [], _ => none
  | (k', v') :: rest, k => if k' = k then some v' else getKey rest k

/-- Whether `k` is a key of the object. -/
def hasKey (m : MsgMap) (k : Int) : Bool :=
  (getKey m k).isSome

/-- JS spread update `{...m, [k]: v}`: if `k` is already a key its value is
replaced in place (JS keeps the original key position), otherwise the new
key is appended at the end. -/
def setKey : MsgMap → Int → String → MsgMap
  | [], k, v => [(k, v)]
  | (k', v') :: rest, k, v =>
      if k' = k then (k, v) :: rest else (k', v') :: setKey rest k v

/-- Messenger state from MessengerReducer.jsx: `{selectedId, messages}`. -/
structure MessengerState where
  selectedId : Int
  messages : MsgMap
deriving DecidableEq

/-- Actions understood by `messengerReducer`; `unknown` carries any other
`action.type` string, handled by the default branch. -/
inductive MessengerAction where
  | changed_selection (contactId : Int)
  | edited_message (message : String)
  | sent_message
  | unknown (ty : String)
deriving DecidableEq

/-- messengerReducer from MessengerReducer.jsx.
`changed_selection` spreads the state and overwrites `selectedId` only;
`edited_message` spreads `state.messages` and overwrites the entry at
`state.selectedId` with `action.message`; `sent_message` does the same with
the empty string; any other action type throws. -/
def messengerReducer (state : MessengerState) (action : MessengerAction) :
    Except ReducerError MessengerState :=
  match action with
  | .changed_selection cid => .ok { state with selectedId := cid }
  | .edited_message msg =>
      .ok { state with messages := setKey state.messages state.selectedId msg }
  | .sent_message =>
      .ok { state with messages := setKey state.messages state.selectedId "" }
  | .unknown _ => .error .UnknownAction

/-- initialState from MessengerReducer.jsx: Taylor selected, a seeded draft
for each of the three contacts. -/
def initialState : MessengerState :=
  { selectedId := 0,
    messages := [(0, "Hello, Taylor"), (1, "Hello, Alice"), (2, "Hello, Bob")] }

/-- A contact record from the `contacts` array in App.jsx. -/
structure Contact where
  id : Int
  name : String
  email : String
deriving DecidableEq

/-- The `contacts` array of App.jsx. -/
def contacts : List Contact :=
  [{ id := 0, name := "Taylor", email := "taylor@mail.com" },
   { id := 1, name := "Alice", email := "alice@mail.com" },
   { id := 2, name := "Bob", email := "bob@mail.com" }]

/-- Counter state `{count}` of the plain counter reducer in App.jsx. -/
structure CounterState where
  count : Int
deriving DecidableEq, Repr

/-- Actions of the plain counter reducer in App.jsx. -/
inductive CounterAction where
  | incremented_count
  | decremented_count
  | set_count (value : Int)
  | unknown (ty : String)
deriving DecidableEq

/-- reducer from App.jsx (the plain counter): increment, decrement, set, and
a throwing default branch. -/
def reducer (state : CounterState) (action : CounterAction) :
    Except ReducerError CounterState :=
  match action with
  | .incremented_count => .ok { count := state.count + 1 }
  | .decremented_count => .ok { count := state.count - 1 }
  | .set_count v => .ok { count := v }
  | .unknown _ => .error .UnknownAction

/-- Counter state `{age}` of the aging variant in App.jsx. -/
structure AgeState where
  age : Int
deriving DecidableEq, Repr

/-- Actions passed to the aging-variant counterReducer; the component only
ever dispatches `incremented_age`, and `unknown` carries any other type
string. -/
inductive AgeAction where
  | incremented_age
  | unknown (ty : String)
deriving DecidableEq

/-- counterReducer from App.jsx (the aging variant).  The function body is a
single `if (action.type === "incremented_age")` with no `else` and no
default: on any other action type control falls off the end of the function
and JS returns `undefined`, modelled as `none`.  It never throws. -/
def counterReducer (state : AgeState) (action : AgeAction) : Option AgeState :=
  match action with
  | .incremented_age => some { age := state.age + 1 }
  | .unknown _ => none

/-- One dispatch step of the hand-written useReducer shim for a throwing
reducer: `setState(s => reducer(s, action))`.  When the reducer throws, the
updater raises before producing a value, the stored state stays what it was
and the error surfaces to the dispatch caller; otherwise the stored state is
replaced by the reducer result.  Returns the stored state after the dispatch
together with the surfaced error, if any. -/
def dispatchE {S A E : Type} (r : S → A → Except E S) (s : S) (a : A) :
    S × Option E :=
  match r s a with
  | .ok s' => (s', none)
  | .error e => (s, some e)

/-- One dispatch step of the useReducer shim for the aging counterReducer:
`setState(s => counterReducer(s, action))` stores whatever the reducer
returns, including `undefined` (`none`), and raises nothing. -/
def dispatchAge (s : AgeState) (a : AgeAction) : Option AgeState :=
  counterReducer s a

/-- Sequential dispatch of a list of task actions, stopping at the first
failure, as a caller looping over `dispatch` would observe it. -/
def applyActions (tasks : List Task) : List TaskAction → Except ReducerError (List Task)
  | [] => .ok tasks
  | a :: rest => (tasksReducer tasks a).bind fun t' => applyActions t' rest

/-- The ids of the tasks in a list, in list order. -/
def taskIds (tasks : List Task) : List Int :=
  tasks.map Task.id

/-- The ids introduced by the `added` actions of an action sequence, in
sequence order. -/
def addedIds : List TaskAction → List Int
  | [] => []
  | .added i _ :: rest => i :: addedIds rest
  | .changed _ :: rest => addedIds rest
  | .deleted _ :: rest => addedIds rest
  | .unknown _ :: rest => addedIds rest

/-! Helper lemmas shared by the claim theorems. -/

/-- Mapping a function that fixes every element of a list is the identity. -/
theorem map_eq_self_of_fix {α : Type} (l : List α) (f : α → α)
    (h : ∀ t ∈ l, f t = t) : l.map f = l := by
  induction l with
  | nil => rfl
  | cons a l ih =>
      simp only [List.map_cons, List.cons.injEq]
      exact ⟨h a (by simp), ih fun t ht => h t (List.mem_cons_of_mem a ht)⟩

/-- Reading back the key just written by a spread update. -/
theorem getKey_setKey_self (m : MsgMap) (k : Int) (v : String) :
    getKey (setKey m k v) k = some v := by
  induction m with
  | nil => simp [setKey, getKey]
  | cons p rest ih =>
      obtain ⟨a, b⟩ := p
      by_cases h : a = k
      · simp [setKey, getKey, h]
      · simp [setKey, getKey, h, ih]

/-- A spread update leaves every other key unchanged. -/
theorem getKey_setKey_ne (m : MsgMap) (k j : Int) (v : String) (h : j ≠ k) :
    getKey (setKey m k v) j = getKey m j := by
  have hkj : ¬k = j := fun hh => h hh.symm
  induction m with
  | nil => simp [setKey, getKey, hkj]
  | cons p rest ih =>
      obtain ⟨a, b⟩ := p
      by_cases ha : a = k
      · subst ha
        simp [setKey, getKey, hkj]
      · simp [setKey, getKey, ha, ih]

/-- A spread update keeps every existing key a key. -/
theorem hasKey_setKey_of_hasKey (m : MsgMap) (k j : Int) (v : String)
    (h : hasKey m j = true) : hasKey (setKey m k v) j = true := by
  by_cases hjk : j = k
  · subst hjk
    simp [hasKey, getKey_setKey_self]
  · simpa [hasKey, getKey_setKey_ne m k j v hjk] using h

/-! Claim theorems. -/

/-- Claim C1.  Draft isolation: from selectedId 0 with drafts 0 maps to "a"
and 1 maps to "b", dispatching changed_selection 1 and then edited_message
"c" yields exactly selectedId 1 with drafts 0 maps to "a" and 1 maps to "c";
moreover changed_selection always returns a state whose messages mapping is
the input mapping unchanged. -/
theorem draft_isolation :
    (messengerReducer { selectedId := 0, messages := [(0, "a"), (1, "b")] }
        (.changed_selection 1)).bind
        (fun st => messengerReducer st (.edited_message "c")) =
      .ok { selectedId := 1, messages := [(0, "a"), (1, "c")] } ∧
    ∀ (st : MessengerState) (cid : Int),
      ∃ st', messengerReducer st (.changed_selection cid) = .ok st' ∧
        st'.messages = st.messages ∧ st'.selectedId = cid := by
  refine ⟨rfl, fun st cid => ⟨{ st with selectedId := cid }, rfl, rfl, rfl⟩⟩

/-- Claim C2.  sent_message keeps selectedId, writes the empty string at the
selected key, and leaves the entry at every other key unchanged; concretely,
from selectedId 0 with drafts 0 maps to "hello" and 1 maps to "x" it yields
selectedId 0 with drafts 0 maps to "" and 1 maps to "x". -/
theorem sent_message_clears_only_active :
    (∀ st : MessengerState,
      ∃ st', messengerReducer st .sent_message = .ok st' ∧
        st'.selectedId = st.selectedId ∧
        getKey st'.messages st.selectedId = some "" ∧
        ∀ k, k ≠ st.selectedId → getKey st'.messages k = getKey st.messages k) ∧
    messengerReducer { selectedId := 0, messages := [(0, "hello"), (1, "x")] }
        .sent_message =
      .ok { selectedId := 0, messages := [(0, ""), (1, "x")] } := by
  refine ⟨fun st => ⟨{ st with messages := setKey st.messages st.selectedId "" },
    rfl, rfl, getKey_setKey_self _ _ _,
    fun k hk => getKey_setKey_ne _ _ _ _ hk⟩, rfl⟩

/-- Claim C7.  Counter round trip: from count 0, three increments followed by
one decrement yield count 2; in general increment yields count plus one,
decrement count minus one, and set_count v yields count v. -/
theorem counter_round_trip :
    ((((reducer { count := 0 } .incremented_count).bind
        (fun s => reducer s .incremented_count)).bind
        (fun s => reducer s .incremented_count)).bind
        (fun s => reducer s .decremented_count)) = .ok { count := 2 } ∧
    (∀ n : Int, reducer { count := n } .incremented_count = .ok { count := n + 1 }) ∧
    (∀ n : Int, reducer { count := n } .decremented_count = .ok { count := n - 1 }) ∧
    (∀ n v : Int, reducer { count := n } (.set_count v) = .ok { count := v }) := by
  exact ⟨rfl, fun n => rfl, fun n => rfl, fun n v => rfl⟩

/-- Claim C4 counterexample: the source tasksReducer has no duplicate-id
check, so adding id 0 to a list already containing a task with id 0 does not
fail with DuplicateId; it succeeds and appends the duplicate, changing the
state. -/
theorem added_duplicate_not_rejected :
    tasksReducer [{ id := 0, text := "a", done := false }]
        (.added 0 "b") =
      .ok [{ id := 0, text := "a", done := false },
           { id := 0, text := "b", done := false }] := rfl

/-- Claim C4 amended: for every task list and every action added with id and
text, the reducer succeeds and appends the new task with done false at the
end of the sequence, leaving all existing tasks unchanged, whether or not a
task with that id is already present. -/
theorem added_appends (tasks : List Task) (i : Int) (s : String) :
    ∃ res, tasksReducer tasks (.added i s) = .ok res ∧
      res.length = tasks.length + 1 ∧
      res.take tasks.length = tasks ∧
      res.getLast? = some { id := i, text := s, done := false } := by
  refine ⟨tasks ++ [{ id := i, text := s, done := false }],
    by simp [tasksReducer], by simp, ?_, ?_⟩
  · exact List.take_left tasks [{ id := i, text := s, done := false }]
  · simp

/-- Claim C5.  changed with a task id absent from the list is a structural
no-op; in general the result has the same length and position n holds the
action task exactly when the input task at position n has the matching id,
which gives verbatim full replacement of every match, all other tasks
unchanged and order preserved. -/
theorem changed_replaces_by_id (tasks : List Task) (tk : Task) :
    ((∀ t ∈ tasks, t.id ≠ tk.id) → tasksReducer tasks (.changed tk) = .ok tasks) ∧
    ∃ res, tasksReducer tasks (.changed tk) = .ok res ∧
      res.length = tasks.length ∧
      ∀ n : Nat, res[n]? = (tasks[n]?).map fun t => if t.id = tk.id then tk else t := by
  constructor
  · intro h
    have hmap : tasks.map (fun t => if t.id = tk.id then tk else t) = tasks :=
      map_eq_self_of_fix _ _ fun t ht => if_neg (h t ht)
    simp [tasksReducer, hmap]
  · exact ⟨_, rfl, by simp [tasksReducer], fun n => by simp [tasksReducer]⟩

/-- Witness for changed_replaces_by_id: a concrete no-op dispatch on the
initial task list with an absent id. -/
theorem changed_replaces_by_id_witness :
    tasksReducer initialTasks
        (.changed { id := 99, text := "zzz", done := true }) = .ok initialTasks :=
  (changed_replaces_by_id initialTasks { id := 99, text := "zzz", done := true }).1
    (by decide)

/-- Claim C6.  Adding a fresh id and then deleting it returns a list
structurally equal to the original. -/
theorem add_then_delete_round_trip (T : List Task) (i : Int) (s : String)
    (h : ∀ t ∈ T, t.id ≠ i) :
    (tasksReducer T (.added i s)).bind (fun l => tasksReducer l (.deleted i)) =
      .ok T := by
  show Except.ok ((T ++ [({ id := i, text := s, done := false } : Task)]).filter
    (fun t => t.id ≠ i)) = .ok T
  rw [List.filter_append]
  have h1 : T.filter (fun t => t.id ≠ i) = T := by
    rw [List.filter_eq_self]
    intro a ha
    simpa using h a ha
  have h2 : ([({ id := i, text := s, done := false } : Task)]).filter
      (fun t => t.id ≠ i) = [] := by simp
  rw [h1, h2, List.append_nil]

/-- Witness for add_then_delete_round_trip at id 99 on the initial task
list. -/
theorem add_then_delete_round_trip_witness :
    (tasksReducer initialTasks (.added 99 "x")).bind
        (fun l => tasksReducer l (.deleted 99)) = .ok initialTasks :=
  add_then_delete_round_trip initialTasks 99 "x" (by decide)

/-- Claim C10.  On a list containing two distinct positions with the same id,
deleted removes every task whose id matches while keeping every other task in
order, and changed replaces every task whose id matches verbatim; neither
operation fails or picks a single match. -/
theorem duplicate_id_actions_affect_every_match (tasks : List Task) (i : Int)
    (p q : Nat) (hpq : p ≠ q)
    (hp : ∃ t, tasks[p]? = some t ∧ t.id = i)
    (hq : ∃ t, tasks[q]? = some t ∧ t.id = i) :
    (∃ res, tasksReducer tasks (.deleted i) = .ok res ∧
      (∀ t ∈ res, t.id ≠ i) ∧ List.Sublist res tasks ∧
      ∀ t ∈ tasks, t.id ≠ i → t ∈ res) ∧
    (∀ tk : Task, tk.id = i →
      ∃ res, tasksReducer tasks (.changed tk) = .ok res ∧
        res.length = tasks.length ∧
        ∀ n : Nat, res[n]? = (tasks[n]?).map fun t => if t.id = i then tk else t) := by
  constructor
  · refine ⟨tasks.filter (fun t => t.id ≠ i), rfl, ?_, List.filter_sublist tasks, ?_⟩
    · intro t ht
      simpa using List.of_mem_filter ht
    · intro t ht hne
      exact List.mem_filter.mpr ⟨ht, by simpa using hne⟩
  · intro tk htk
    subst htk
    exact ⟨_, rfl, by simp [tasksReducer], fun n => by simp [tasksReducer]⟩

/-- Witness for duplicate_id_actions_affect_every_match on a two-element list
whose tasks share id 0. -/
theorem duplicate_id_actions_witness :
    ∃ res,
      tasksReducer [{ id := 0, text := "a", done := false },
                    { id := 0, text := "b", done := false }]
          (.deleted 0) = .ok res ∧ ∀ t ∈ res, t.id ≠ 0 := by
  have h :=
    duplicate_id_actions_affect_every_match
      [{ id := 0, text := "a", done := false },
       { id := 0, text := "b", done := false }] 0 0 1
      (by decide)
      ⟨{ id := 0, text := "a", done := false }, rfl, rfl⟩
      ⟨{ id := 0, text := "b", done := false }, rfl, rfl⟩
  obtain ⟨res, h1, h2, h3, h4⟩ := h.1
  exact ⟨res, h1, h2⟩

/-- Claim C3.  The task, messenger and plain counter reducers all reject an
unrecognized action type: one dispatch step surfaces UnknownAction and keeps
the stored state for every state and every unrecognized type string.  The
aging-variant counterReducer, however, has no default branch: at the failing
input below (state with age 42, action type "bogus") it returns undefined,
which the useReducer shim stores in place of the previous state, with no
error surfaced — contradicting the claim for that reducer. -/
theorem unknown_action_behaviour :
    (∀ (tasks : List Task) (ty : String),
      dispatchE tasksReducer tasks (.unknown ty) = (tasks, some .UnknownAction)) ∧
    (∀ (st : MessengerState) (ty : String),
      dispatchE messengerReducer st (.unknown ty) = (st, some .UnknownAction)) ∧
    (∀ (c : CounterState) (ty : String),
      dispatchE reducer c (.unknown ty) = (c, some .UnknownAction)) ∧
    dispatchAge { age := 42 } (.unknown "bogus") = none :=
  ⟨fun _ _ => rfl, fun _ _ => rfl, fun _ _ => rfl, rfl⟩

/-- Claim C9 counterexample: from a state whose selectedId 0 is a key of the
messages mapping, the recognized action changed_selection with contactId 5
succeeds and yields a state whose selectedId 5 is not a key of the mapping. -/
theorem selected_id_invariant_counterexample :
    hasKey ({ selectedId := 0, messages := [(0, "x")] } : MessengerState).messages 0
        = true ∧
    messengerReducer { selectedId := 0, messages := [(0, "x")] }
        (.changed_selection 5) =
      .ok { selectedId := 5, messages := [(0, "x")] } ∧
    hasKey ([(0, "x")] : MsgMap) 5 = false :=
  ⟨rfl, rfl, rfl⟩

/-- Claim C9 amended: when selectedId is a key of the mapping, edited_message
and sent_message preserve the invariant for any payload, and
changed_selection preserves it whenever the new contactId is itself a key of
the mapping, which holds for every contact id the app can dispatch; the
initial state seeds an entry for every known contact id and its selectedId
is one of those keys. -/
theorem selected_id_invariant_amended (st : MessengerState)
    (h : hasKey st.messages st.selectedId = true) :
    (∀ msg : String, ∃ st',
      messengerReducer st (.edited_message msg) = .ok st' ∧
      hasKey st'.messages st'.selectedId = true) ∧
    (∃ st', messengerReducer st .sent_message = .ok st' ∧
      hasKey st'.messages st'.selectedId = true) ∧
    (∀ cid : Int, hasKey st.messages cid = true →
      ∃ st', messengerReducer st (.changed_selection cid) = .ok st' ∧
        hasKey st'.messages st'.selectedId = true) ∧
    (hasKey initialState.messages initialState.selectedId = true ∧
     ∀ c ∈ contacts, hasKey initialState.messages c.id = true) := by
  refine ⟨?_, ?_, ?_, rfl, by decide⟩
  · intro msg
    refine ⟨{ st with messages := setKey st.messages st.selectedId msg }, rfl, ?_⟩
    simp [hasKey, getKey_setKey_self]
  · refine ⟨{ st with messages := setKey st.messages st.selectedId "" }, rfl, ?_⟩
    simp [hasKey, getKey_setKey_self]
  · intro cid hcid
    exact ⟨{ st with selectedId := cid }, rfl, hcid⟩

/-- Witness for selected_id_invariant_amended at the seeded initial state. -/
theorem selected_id_invariant_amended_witness :
    ∃ st', messengerReducer initialState .sent_message = .ok st' ∧
      hasKey st'.messages st'.selectedId = true :=
  (selected_id_invariant_amended initialState rfl).2.1

/-- changed keeps the list of task ids unchanged, because the replacement
task carries the matched id. -/
theorem taskIds_changed (l : List Task) (tk : Task) :
    taskIds (l.map fun t => if t.id = tk.id then tk else t) = taskIds l := by
  induction l with
  | nil => rfl
  | cons a l ih =>
      by_cases hid : a.id = tk.id
      · simp [taskIds, hid] at ih ⊢
        exact ih
      · simp [taskIds, hid] at ih ⊢
        exact ih

/-- Claim C8.  Order preservation: after any accepted action sequence the
final list of task ids is a sublist of the initial ids followed by the added
ids in dispatch order, so any two surviving tasks keep the relative order of
the first list in which they occurred together. -/
theorem order_preservation (T : List Task) (as : List TaskAction)
    (T' : List Task) (h : applyActions T as = .ok T') :
    List.Sublist (taskIds T') (taskIds T ++ addedIds as) := by
  induction as generalizing T with
  | nil =>
      simp only [applyActions] at h
      cases h
      simpa [addedIds] using List.Sublist.refl (taskIds T)
  | cons a rest ih =>
      cases a with
      | added i s =>
          have h' : applyActions
              (T ++ [({ id := i, text := s, done := false } : Task)]) rest =
              .ok T' := h
          have hs := ih _ h'
          have hids : taskIds (T ++ [({ id := i, text := s, done := false } : Task)]) =
              taskIds T ++ [i] := by simp [taskIds]
          rw [hids] at hs
          simpa [addedIds, List.append_assoc] using hs
      | changed tk =>
          have h' : applyActions (T.map fun t => if t.id = tk.id then tk else t)
              rest = .ok T' := h
          have hs := ih _ h'
          rw [taskIds_changed] at hs
          simpa [addedIds] using hs
      | deleted i =>
          have h' : applyActions (T.filter fun t => t.id ≠ i) rest = .ok T' := h
          have hs := ih _ h'
          refine hs.trans ?_
          have hmap : List.Sublist (taskIds (T.filter fun t => t.id ≠ i)) (taskIds T) :=
            (List.filter_sublist T).map Task.id
          exact hmap.append_right (addedIds rest)
      | unknown ty =>
          exact Except.noConfusion h

/-- Witness for order_preservation at a single concrete added action on the
initial task list. -/
theorem order_preservation_witness :
    List.Sublist
      (taskIds (initialTasks ++ [({ id := 99, text := "x", done := false } : Task)]))
      (taskIds initialTasks ++ addedIds [TaskAction.added 99 "x"]) :=
  order_preservation initialTasks [TaskAction.added 99 "x"] _ rfl

end Spec2Proof
